import Mathlib

/-!
# Bucket list: the item workflow controller of `src/App.js`

A shallow embedding of the four operations of the `App` component
(`fetchItems`, `addItem`, `updateItem`, `deleteItem`) and of the click handlers
that drive its edit state, followed by the properties proved about them.

Conventions of the embedding
* The React state of the component is the record `State`; every operation is a
  function from the state before to the state after, paired with the list of
  calls it made to its collaborators (`Call`), in the order they were made.
* The collaborators (the GraphQL client, `uploadData`, `getUrl`, `Date.now`, the
  signed-in user) are not part of the repository.  Their answers are the fields
  of `Env`; an answer `none` (or `false`) stands for a rejected promise.
* `createdAt` is kept as the time value, in milliseconds, that
  `new Date(createdAt)` denotes.
-/

namespace BucketList

/-! ## Data model -/

/-- The `imageUrl` property of a list element: JavaScript tells a property that
is `undefined` (or absent) from one that is `null` and from one holding a URL. -/
inductive ImageUrl where
  | undefined
  | null
  | url (u : String)
  deriving DecidableEq, Repr

/-- A record as the Record Store returns it (the fields the component reads). -/
structure BucketItem where
  id : String
  title : String
  imageKey : Option String
  createdAt : Int
  deriving DecidableEq, Repr

/-- An element of the local list `items`: a record and its `imageUrl` property. -/
structure Item extends BucketItem where
  imageUrl : ImageUrl
  deriving DecidableEq, Repr

/-- A record used as a list element as it is: it has no `imageUrl` property, so
reading it gives `undefined`. -/
def BucketItem.asItem (i : BucketItem) : Item :=
  { toBucketItem := i, imageUrl := ImageUrl.undefined }

/-- The parts of a browser `File` that the component uses. -/
structure File where
  name : String
  type : String
  deriving DecidableEq, Repr

/-- The `useState` cells of `App`, and the value of the create form's file input
(`fileInputRef.current.value`). -/
structure State where
  item : String
  items : List Item
  editingId : Option String
  editingTitle : String
  editingImageFile : Option File
  imageFile : Option File
  fileInputValue : String
  deriving DecidableEq, Repr

/-- The state of a freshly mounted component. -/
def State.initial : State :=
  { item := "", items := [], editingId := none, editingTitle := "",
    editingImageFile := none, imageFile := none, fileInputValue := "" }

/-- A call made to a collaborator. -/
inductive Call where
  | graphqlList
  | graphqlCreate (title : String) (imageKey : Option String)
  | graphqlUpdate (id : Option String) (title : String) (imageKey : Option String)
  | graphqlDelete (id : String)
  | uploadData (key : String) (data : File) (contentType : String)
  | getUrl (key : String)
  | consoleError (label : String)
  deriving DecidableEq, Repr

/-- The answers of the collaborators during one operation.
`getUrl n k` is the answer to the URL request for key `k` made for the record at
position `n` of the listing (position `0` in create and update, which make one
request); `uploadData k f` is the `key` of the upload result. -/
structure Env where
  username : String
  now : Nat
  listBucketItems : Option (List BucketItem)
  createBucketItem : String → Option String → Option BucketItem
  updateBucketItem : Option String → String → Option String → Bool
  deleteBucketItem : String → Bool
  uploadData : String → File → Option String
  getUrl : Nat → String → Option String

/-! ## Strings -/

/-- The code points `String.prototype.trim` strips: ECMAScript white space and
line terminators. -/
def isJsWhiteSpace (c : Char) : Bool :=
  let n := c.toNat
  n = 9 || n = 10 || n = 11 || n = 12 || n = 13 || n = 32 || n = 160 || n = 5760
    || (8192 ≤ n && n ≤ 8202) || n = 8232 || n = 8233 || n = 8239 || n = 8287
    || n = 12288 || n = 65279

/-- The method `String.prototype.trim`. -/
def jsTrim (s : String) : String :=
  ⟨((s.data.dropWhile isJsWhiteSpace).reverse.dropWhile isJsWhiteSpace).reverse⟩

/-- The guard `!s.trim()`: the trimmed string is the empty string. -/
def isBlank (s : String) : Bool :=
  (jsTrim s).data.isEmpty

/-- The template literal of lines 77 and 120:
`bucket-images/${user.username}/${Date.now()}-${file.name}`. -/
def storageKey (username : String) (now : Nat) (name : String) : String :=
  "bucket-images/" ++ username ++ "/" ++ Nat.repr now ++ "-" ++ name

/-! ## The list operation -/

/-- The comparator of line 58, `new Date(a.createdAt) - new Date(b.createdAt)`,
read as the order it induces: `a` may stay before `b`. -/
def createdAtLe (a b : Item) : Prop :=
  a.createdAt ≤ b.createdAt

instance : DecidableRel createdAtLe :=
  fun a b => inferInstanceAs (Decidable (a.createdAt ≤ b.createdAt))

instance : IsTotal Item createdAtLe :=
  ⟨fun a b => Int.le_total a.createdAt b.createdAt⟩

instance : IsTrans Item createdAtLe :=
  ⟨fun _ _ _ hab hbc => Int.le_trans hab hbc⟩

/-- The call `resolved.sort(...)` of line 57: `Array.prototype.sort` is a stable
sort, given here as the stable insertion sort. -/
def sortByCreatedAt (l : List Item) : List Item :=
  l.insertionSort createdAtLe

/-- The callback of lines 46 to 54 for the record at position `n`: the element it
yields and the calls it makes. -/
def resolveItem (env : Env) (n : Nat) (i : BucketItem) : Item × List Call :=
  match i.imageKey with
  | none => (i.asItem, [])
  | some k =>
    if k = "" then (i.asItem, [])
    else
      match env.getUrl n k with
      | some u => ({ toBucketItem := i, imageUrl := ImageUrl.url u }, [Call.getUrl k])
      | none => (i.asItem, [Call.getUrl k])

/-- The elements `Promise.all` collects, in the order of the records. -/
def resolveAll (env : Env) (recs : List BucketItem) : List Item :=
  recs.enum.map fun p => (resolveItem env p.1 p.2).1

/-- The URL requests of the listing, in the order of the records. -/
def resolveCalls (env : Env) (recs : List BucketItem) : List Call :=
  recs.enum.flatMap fun p => (resolveItem env p.1 p.2).2

/-- The function `fetchItems` (lines 38 to 65). -/
def fetchItems (env : Env) (s : State) : State × List Call :=
  match env.listBucketItems with
  | none => (s, [Call.graphqlList, Call.consoleError "Fetch error:"])
  | some recs =>
    ({ s with items := sortByCreatedAt (resolveAll env recs) },
      Call.graphqlList :: resolveCalls env recs)

/-! ## Create -/

/-- Lines 89 to 104 of `addItem`: the mutation and, when it succeeds, the state
updates.  `calls` are the calls already made. -/
def addItemCreate (env : Env) (s : State) (imageKey : Option String)
    (tempImageUrl : ImageUrl) (calls : List Call) : State × List Call :=
  match env.createBucketItem s.item imageKey with
  | some createRes =>
    ({ s with
        items := s.items ++ [{ toBucketItem := createRes, imageUrl := tempImageUrl }],
        item := "", imageFile := none, fileInputValue := "" },
      calls ++ [Call.graphqlCreate s.item imageKey])
  | none =>
    (s, calls ++ [Call.graphqlCreate s.item imageKey, Call.consoleError "Create error:"])

/-- The function `addItem` (lines 69 to 108). -/
def addItem (env : Env) (s : State) : State × List Call :=
  if isBlank s.item then (s, [])
  else
    match s.imageFile with
    | none => addItemCreate env s none ImageUrl.null []
    | some f =>
      let imageKey := storageKey env.username env.now f.name
      match env.uploadData imageKey f with
      | none =>
        (s, [Call.uploadData imageKey f f.type, Call.consoleError "Create error:"])
      | some k =>
        match env.getUrl 0 k with
        | none =>
          (s, [Call.uploadData imageKey f f.type, Call.getUrl k,
                Call.consoleError "Create error:"])
        | some u =>
          addItemCreate env s (some imageKey) (ImageUrl.url u)
            [Call.uploadData imageKey f f.type, Call.getUrl k]

/-! ## Update -/

/-- The callback of lines 145 to 149 applied to one element. -/
def replaceEdited (editingId : Option String) (editingTitle : String)
    (newImageKey : Option String) (newImageUrl : ImageUrl) (i : Item) : Item :=
  if some i.id = editingId then
    { i with title := editingTitle, imageKey := newImageKey, imageUrl := newImageUrl }
  else i

/-- Lines 132 to 154 of `updateItem`: the mutation and, when it succeeds, the
state updates.  `calls` are the calls already made. -/
def updateItemMutate (env : Env) (s : State) (newImageKey : Option String)
    (newImageUrl : ImageUrl) (calls : List Call) : State × List Call :=
  if env.updateBucketItem s.editingId s.editingTitle newImageKey then
    ({ s with
        items := s.items.map (replaceEdited s.editingId s.editingTitle newImageKey newImageUrl),
        editingId := none, editingTitle := "", editingImageFile := none },
      calls ++ [Call.graphqlUpdate s.editingId s.editingTitle newImageKey])
  else
    (s, calls ++ [Call.graphqlUpdate s.editingId s.editingTitle newImageKey,
                  Call.consoleError "Update error:"])

/-- The function `updateItem` (lines 112 to 158). -/
def updateItem (env : Env) (currentItem : Item) (s : State) : State × List Call :=
  if isBlank s.editingTitle then (s, [])
  else
    match s.editingImageFile with
    | none => updateItemMutate env s currentItem.imageKey currentItem.imageUrl []
    | some f =>
      let newImageKey := storageKey env.username env.now f.name
      match env.uploadData newImageKey f with
      | none =>
        (s, [Call.uploadData newImageKey f f.type, Call.consoleError "Update error:"])
      | some k =>
        match env.getUrl 0 k with
        | none =>
          (s, [Call.uploadData newImageKey f f.type, Call.getUrl k,
                Call.consoleError "Update error:"])
        | some u =>
          updateItemMutate env s (some newImageKey) (ImageUrl.url u)
            [Call.uploadData newImageKey f f.type, Call.getUrl k]

/-! ## Delete -/

/-- The function `deleteItem` (lines 162 to 174). -/
def deleteItem (env : Env) (id : String) (s : State) : State × List Call :=
  if env.deleteBucketItem id then
    ({ s with items := s.items.filter fun i => i.id ≠ id }, [Call.graphqlDelete id])
  else
    (s, [Call.graphqlDelete id, Call.consoleError "Delete error:"])

/-! ## Click and change handlers -/

/-- The pencil button of a list element (lines 318 to 321). -/
def beginEdit (i : Item) (s : State) : State :=
  { s with editingId := some i.id, editingTitle := i.title }

/-- The Cancel button (lines 291 to 295). -/
def cancelEdit (s : State) : State :=
  { s with editingId := none, editingTitle := "", editingImageFile := none }

/-- The change handler of the edit form's file input (line 272). -/
def chooseEditingImage (f : Option File) (s : State) : State :=
  { s with editingImageFile := f }

/-- The change handler of the edit form's title input (line 257). -/
def typeEditingTitle (v : String) (s : State) : State :=
  { s with editingTitle := v }

/-- The change handler of the create form's title input (line 217). -/
def typeItem (v : String) (s : State) : State :=
  { s with item := v }

/-- The change handler of the create form's file input (line 225). -/
def chooseImage (f : Option File) (s : State) : State :=
  { s with imageFile := f }

/-! ## Runs of the controller -/

/-- What can happen to a mounted component: an operation together with the
answers its collaborators give, or a change of one of the form fields. -/
inductive Event where
  | fetch (env : Env)
  | add (env : Env)
  | update (env : Env) (currentItem : Item)
  | delete (env : Env) (id : String)
  | beginEdit (i : Item)
  | cancelEdit
  | chooseEditingImage (f : Option File)
  | typeEditingTitle (v : String)
  | typeItem (v : String)
  | chooseImage (f : Option File)

/-- The state after one event. -/
def step (s : State) : Event → State
  | Event.fetch env => (fetchItems env s).1
  | Event.add env => (addItem env s).1
  | Event.update env currentItem => (updateItem env currentItem s).1
  | Event.delete env id => (deleteItem env id s).1
  | Event.beginEdit i => beginEdit i s
  | Event.cancelEdit => cancelEdit s
  | Event.chooseEditingImage f => chooseEditingImage f s
  | Event.typeEditingTitle v => typeEditingTitle v s
  | Event.typeItem v => typeItem v s
  | Event.chooseImage f => chooseImage f s

/-- The state after a sequence of events. -/
def run (s : State) (evs : List Event) : State :=
  evs.foldl step s

/-- The local list is in ascending order of `createdAt`. -/
def SortedByCreatedAt (l : List Item) : Prop :=
  l.Sorted createdAtLe

/-! ## Concrete inputs -/

/-- The records of the ordering scenario: created at `T2 = 20`, then at `T1 = 10`. -/
def scenarioRecords : List BucketItem :=
  [{ id := "b", title := "second", imageKey := none, createdAt := 20 },
   { id := "a", title := "first", imageKey := some "k", createdAt := 10 }]

/-- Answers of the collaborators in which every request succeeds and the store
lists `recs`. -/
def envListing (recs : List BucketItem) : Env :=
  { username := "ann", now := 17, listBucketItems := some recs,
    createBucketItem := fun t k => some { id := "n", title := t, imageKey := k, createdAt := 30 },
    updateBucketItem := fun _ _ _ => true,
    deleteBucketItem := fun _ => true,
    uploadData := fun k _ => some k,
    getUrl := fun _ k => some ("https://" ++ k) }

/-- Three listed records: two with an image key, one without. -/
def threeRecords : List BucketItem :=
  [{ id := "a", title := "first", imageKey := some "k0", createdAt := 10 },
   { id := "b", title := "second", imageKey := some "k1", createdAt := 20 },
   { id := "c", title := "third", imageKey := none, createdAt := 30 }]

/-- Answers in which the store lists `threeRecords` and the URL request for the
record at position `1` is rejected. -/
def envPartial : Env :=
  { envListing threeRecords with
    getUrl := fun n k => if n = 1 then none else some ("https://" ++ k) }

/-- Answers in which the upload is rejected. -/
def envUploadFails : Env :=
  { envListing [] with uploadData := fun _ _ => none }

/-- The image of the marathon scenario. -/
def shoes : File :=
  { name := "shoes.png", type := "image/png" }

/-- A list element created at time `t`, without an image. -/
def plainItem (id title : String) (t : Int) : Item :=
  { id := id, title := title, imageKey := none, createdAt := t, imageUrl := ImageUrl.undefined }

/-- A state in which the create form holds a title and the image `shoes.png`. -/
def stateMarathon : State :=
  { State.initial with
    items := [plainItem "a" "first" 10], item := "Run a marathon", imageFile := some shoes,
    fileInputValue := "C:/fakepath/shoes.png" }

/-- A state in which the create form holds the title of the scenario and no image. -/
def stateJapan : State :=
  { State.initial with items := [plainItem "a" "first" 10], item := "Visit Japan" }

/-- A list of two elements, the first with an image. -/
def twoItems : List Item :=
  [{ id := "a", title := "first", imageKey := some "k0", createdAt := 10,
     imageUrl := ImageUrl.url "https://k0" },
   plainItem "b" "second" 20]

/-- A state in which the first element of `twoItems` is being edited, with a new
title typed and no replacement image chosen. -/
def stateEditingA : State :=
  { State.initial with items := twoItems, editingId := some "a", editingTitle := "renamed" }

/-- A state in which the edit form and the create form hold white space only. -/
def stateBlank : State :=
  { State.initial with
    items := twoItems, editingId := some "a", editingTitle := " \t ", item := "  ",
    editingImageFile := some shoes, imageFile := some shoes }

/-- The image key `addItem` sends in the creation mutation when it gets that
far: `null` without a selected image, else the storage key of the upload. -/
def createKey (env : Env) (s : State) : Option String :=
  s.imageFile.map fun f => storageKey env.username env.now f.name

/-- The condition under which a create keeps the list in order: the record the
Record Store returns is not older than the last element of the list. It
constrains no other event. -/
def createInOrder (s : State) : Event → Prop
  | Event.add env =>
    ∀ r ∈ env.createBucketItem s.item (createKey env s), ∀ i ∈ s.items.getLast?,
      i.createdAt ≤ r.createdAt
  | _ => True

instance (s : State) (e : Event) : Decidable (createInOrder s e) := by
  cases e
  case add env =>
    exact inferInstanceAs (Decidable (∀ r ∈ env.createBucketItem s.item (createKey env s),
      ∀ i ∈ s.items.getLast?, i.createdAt ≤ r.createdAt))
  all_goals exact isTrue trivial

/-- Every create of the run meets `createInOrder` in the state it starts from. -/
def InOrderRun : State → List Event → Prop
  | _, [] => True
  | s, e :: evs => createInOrder s e ∧ InOrderRun (step s e) evs

/-- The condition `InOrderRun` can be checked by running the events. -/
def decInOrderRun : (evs : List Event) → (s : State) → Decidable (InOrderRun s evs)
  | [], _ => isTrue trivial
  | e :: evs, s =>
    have := decInOrderRun evs (step s e)
    inferInstanceAs (Decidable (createInOrder s e ∧ InOrderRun (step s e) evs))

instance (s : State) (evs : List Event) : Decidable (InOrderRun s evs) :=
  decInOrderRun evs s

instance (l : List Item) : Decidable (SortedByCreatedAt l) :=
  inferInstanceAs (Decidable (l.Sorted createdAtLe))

/-- The number a list of decimal digit characters denotes. -/
def digitsValue (ds : List Char) : Nat :=
  ds.foldl (fun a c => 10 * a + (c.toNat - 48)) 0

/-- Answers in which the Record Store stamps a created record with a time
earlier than those of `scenarioRecords`. -/
def envStale : Env :=
  { envListing scenarioRecords with
    createBucketItem := fun t k => some { id := "n", title := t, imageKey := k, createdAt := 5 } }

/-- A state in which the first element of `twoItems` is being edited and a
replacement image has been chosen for it. -/
def stateEditingAWithImage : State :=
  chooseEditingImage (some shoes) (beginEdit (plainItem "a" "first" 10) stateEditingA)

/-! ## Auxiliary facts -/

theorem resolveItem_record (env : Env) (n : Nat) (i : BucketItem) :
    (resolveItem env n i).1.toBucketItem = i := by
  unfold resolveItem
  cases i.imageKey with
  | none => rfl
  | some k =>
    by_cases hk : k = ""
    · simp [hk, BucketItem.asItem]
    · cases hu : env.getUrl n k <;> simp [hk, hu, BucketItem.asItem]

theorem resolveAll_records (env : Env) (recs : List BucketItem) :
    (resolveAll env recs).map Item.toBucketItem = recs := by
  unfold resolveAll
  rw [List.map_map]
  have h : (Item.toBucketItem ∘ fun p : Nat × BucketItem => (resolveItem env p.1 p.2).1)
      = Prod.snd := by
    funext p
    exact resolveItem_record env p.1 p.2
  rw [h, List.enum_map_snd]

theorem resolveAll_length (env : Env) (recs : List BucketItem) :
    (resolveAll env recs).length = recs.length := by
  simp [resolveAll]

theorem resolveAll_getElem? (env : Env) (recs : List BucketItem) (n : Nat) :
    (resolveAll env recs)[n]? = (recs[n]?).map fun r => (resolveItem env n r).1 := by
  unfold resolveAll
  rw [List.getElem?_map, List.getElem?_enum]
  cases recs[n]? <;> rfl

theorem fetchItems_items (env : Env) (s : State) (recs : List BucketItem)
    (h : env.listBucketItems = some recs) :
    (fetchItems env s).1.items = sortByCreatedAt (resolveAll env recs) := by
  simp [fetchItems, h]

theorem fetchItems_calls (env : Env) (s : State) (recs : List BucketItem)
    (h : env.listBucketItems = some recs) :
    (fetchItems env s).2 = Call.graphqlList :: resolveCalls env recs := by
  simp [fetchItems, h]

theorem consoleError_not_mem_resolveCalls (env : Env) (recs : List BucketItem) (l : String) :
    Call.consoleError l ∉ resolveCalls env recs := by
  unfold resolveCalls
  rw [List.mem_flatMap]
  rintro ⟨p, -, hp⟩
  unfold resolveItem at hp
  cases hk : p.2.imageKey with
  | none => simp [hk] at hp
  | some k =>
    by_cases hk2 : k = ""
    · simp [hk, hk2] at hp
    · cases hu : env.getUrl p.1 k <;> simp [hk, hk2, hu] at hp

/-! ## Listing -/

/-- C1: when the Record Store answers the listing with `recs`, in whatever order,
`fetchItems` sets the local list to a permutation of the elements resolved from
`recs` (each is its record, possibly with an `imageUrl` added) that is in
ascending order of `createdAt`, and leaves the rest of the state alone. -/
theorem fetchItems_sorted_perm (env : Env) (s : State) (recs : List BucketItem)
    (h : env.listBucketItems = some recs) :
    (fetchItems env s).1.items.Perm (resolveAll env recs)
      ∧ ((fetchItems env s).1.items.map Item.toBucketItem).Perm recs
      ∧ SortedByCreatedAt (fetchItems env s).1.items
      ∧ (fetchItems env s).1 = { s with items := (fetchItems env s).1.items } := by
  have hp : (fetchItems env s).1.items.Perm (resolveAll env recs) := by
    rw [fetchItems_items env s recs h]
    exact List.perm_insertionSort _ _
  refine ⟨hp, ?_, ?_, ?_⟩
  · have := hp.map Item.toBucketItem
    rwa [resolveAll_records] at this
  · rw [fetchItems_items env s recs h]
    exact List.sorted_insertionSort _ _
  · simp [fetchItems, h]

/-- The scenario of C1: records created at `T2` then `T1` are listed `T1`, `T2`. -/
theorem fetchItems_sorted_perm_witness :
    (envListing scenarioRecords).listBucketItems = some scenarioRecords
      ∧ ((fetchItems (envListing scenarioRecords) State.initial).1.items.map
          fun i => i.createdAt) = [10, 20]
      ∧ SortedByCreatedAt (fetchItems (envListing scenarioRecords) State.initial).1.items :=
  ⟨rfl, by decide,
    (fetchItems_sorted_perm (envListing scenarioRecords) State.initial scenarioRecords rfl).2.2.1⟩

/-- C8: when the Record Store answers the listing with `recs`, the listing
succeeds whichever URL requests are rejected: no error is logged, the local list
is a permutation of the resolved elements and has as many elements as `recs`;
the element resolved from a record with no image key (`null` or empty), or whose
URL request was rejected, is the record as returned, without an `imageUrl`; the
element resolved from a record whose URL request succeeded is the record with
the resolved `imageUrl`. -/
theorem fetchItems_partial_failure (env : Env) (s : State) (recs : List BucketItem)
    (h : env.listBucketItems = some recs) :
    (∀ l, Call.consoleError l ∉ (fetchItems env s).2)
      ∧ (fetchItems env s).1.items.length = recs.length
      ∧ (fetchItems env s).1.items.Perm (resolveAll env recs)
      ∧ (∀ n r, recs[n]? = some r →
          (r.imageKey = none ∨ r.imageKey = some ""
              ∨ ∃ k, r.imageKey = some k ∧ env.getUrl n k = none) →
          (resolveAll env recs)[n]? = some r.asItem
            ∧ r.asItem ∈ (fetchItems env s).1.items)
      ∧ (∀ n r k u, recs[n]? = some r → r.imageKey = some k → k ≠ "" →
          env.getUrl n k = some u →
          (resolveAll env recs)[n]? = some { toBucketItem := r, imageUrl := ImageUrl.url u }
            ∧ ({ toBucketItem := r, imageUrl := ImageUrl.url u } : Item)
                ∈ (fetchItems env s).1.items) := by
  have hp : (fetchItems env s).1.items.Perm (resolveAll env recs) := by
    rw [fetchItems_items env s recs h]
    exact List.perm_insertionSort _ _
  have hmem : ∀ (n : Nat) (i : Item), (resolveAll env recs)[n]? = some i → i ∈ (fetchItems env s).1.items := by
    intro n i hi
    exact hp.mem_iff.mpr (List.getElem?_mem hi)
  refine ⟨?_, ?_, hp, ?_, ?_⟩
  · intro l hl
    rw [fetchItems_calls env s recs h] at hl
    rcases List.mem_cons.mp hl with hl | hl
    · cases hl
    · exact consoleError_not_mem_resolveCalls env recs l hl
  · rw [hp.length_eq, resolveAll_length]
  · intro n r hr hcase
    have hres : (resolveAll env recs)[n]? = some r.asItem := by
      rw [resolveAll_getElem?, hr]
      simp only [Option.map_some']
      congr 1
      unfold resolveItem
      rcases hcase with hk | hk | ⟨k, hk, hu⟩
      · simp [hk]
      · simp [hk]
      · by_cases hk2 : k = ""
        · simp [hk, hk2]
        · simp [hk, hk2, hu]
    exact ⟨hres, hmem n _ hres⟩
  · intro n r k u hr hk hk2 hu
    have hres : (resolveAll env recs)[n]? =
        some { toBucketItem := r, imageUrl := ImageUrl.url u } := by
      rw [resolveAll_getElem?, hr]
      simp only [Option.map_some']
      congr 1
      unfold resolveItem
      simp [hk, hk2, hu]
    exact ⟨hres, hmem n _ hres⟩

/-- A listing of three records in which the second URL request is rejected: all
three are listed, the second without an `imageUrl`. -/
theorem fetchItems_partial_failure_witness :
    envPartial.listBucketItems = some threeRecords
      ∧ (fetchItems envPartial State.initial).1.items.length = threeRecords.length
      ∧ ((fetchItems envPartial State.initial).1.items.map fun i => i.imageUrl)
          = [ImageUrl.url "https://k0", ImageUrl.undefined, ImageUrl.undefined] :=
  ⟨rfl, (fetchItems_partial_failure envPartial State.initial threeRecords rfl).2.1, by decide⟩

/-! ## Delete -/

/-- C4: a delete that the Record Store accepts issues the delete mutation for
`id` and leaves the prior list without the elements whose id is `id`: the
elements with another id all remain, as they were and in the same order; when no
element has that id the list is unchanged. Nothing else in the state changes. -/
theorem deleteItem_removes_exactly (env : Env) (id : String) (s : State)
    (h : env.deleteBucketItem id = true) :
    (deleteItem env id s).2 = [Call.graphqlDelete id]
      ∧ (deleteItem env id s).1.items = s.items.filter (fun i => i.id ≠ id)
      ∧ (∀ i, i ∈ (deleteItem env id s).1.items ↔ i ∈ s.items ∧ i.id ≠ id)
      ∧ (deleteItem env id s).1.items.Sublist s.items
      ∧ ((∀ i ∈ s.items, i.id ≠ id) → (deleteItem env id s).1.items = s.items)
      ∧ (deleteItem env id s).1 = { s with items := (deleteItem env id s).1.items } := by
  have hi : (deleteItem env id s).1.items = s.items.filter (fun i => i.id ≠ id) := by
    simp [deleteItem, h]
  refine ⟨by simp [deleteItem, h], hi, ?_, ?_, ?_, by simp [deleteItem, h]⟩
  · intro i
    rw [hi, List.mem_filter]
    simp
  · rw [hi]
    exact List.filter_sublist _
  · intro hall
    rw [hi, List.filter_eq_self]
    intro i hmem
    simpa using hall i hmem

/-- Deleting `"a"` from `twoItems` leaves the second element; deleting an id
that is not listed leaves both, and the mutation is still issued. -/
theorem deleteItem_removes_exactly_witness :
    (deleteItem (envListing []) "a" stateEditingA).1.items = [plainItem "b" "second" 20]
      ∧ (deleteItem (envListing []) "zz" stateEditingA).1.items = twoItems
      ∧ (deleteItem (envListing []) "zz" stateEditingA).2 = [Call.graphqlDelete "zz"] :=
  ⟨by decide,
    (deleteItem_removes_exactly (envListing []) "zz" stateEditingA rfl).2.2.2.2.1 (by decide),
    (deleteItem_removes_exactly (envListing []) "zz" stateEditingA rfl).1⟩

/-! ## Blank titles -/

theorem isBlank_of_whiteSpace (t : String) (h : ∀ c ∈ t.data, isJsWhiteSpace c = true) :
    isBlank t = true := by
  have h1 : t.data.dropWhile isJsWhiteSpace = [] := List.dropWhile_eq_nil_iff.mpr h
  simp [isBlank, jsTrim, h1]

/-- C6: when the editing title is empty or holds white space only, `updateItem`
does nothing: it makes no call (no upload, no mutation) and returns the state as
it was; the same holds for `addItem` and the title input. -/
theorem blank_title_noop (env : Env) (currentItem : Item) (s : State) :
    ((∀ c ∈ s.editingTitle.data, isJsWhiteSpace c = true) →
        updateItem env currentItem s = (s, []))
      ∧ ((∀ c ∈ s.item.data, isJsWhiteSpace c = true) → addItem env s = (s, [])) := by
  constructor
  · intro h
    simp [updateItem, isBlank_of_whiteSpace _ h]
  · intro h
    simp [addItem, isBlank_of_whiteSpace _ h]

/-- With white space in both title fields and an image pending in both forms,
neither Save nor Add does anything. -/
theorem blank_title_noop_witness :
    updateItem (envListing []) (plainItem "b" "second" 20) stateBlank = (stateBlank, [])
      ∧ addItem (envListing []) stateBlank = (stateBlank, []) :=
  ⟨(blank_title_noop (envListing []) (plainItem "b" "second" 20) stateBlank).1 (by decide),
    (blank_title_noop (envListing []) (plainItem "b" "second" 20) stateBlank).2 (by decide)⟩

/-! ## Create -/

/-- C3: with a non-blank title and an image selected, when the upload is
rejected, or the URL request that follows it is, `addItem` issues no
record-creation mutation and returns the state as it was (local list, title
input and selected image included). -/
theorem addItem_upload_failure (env : Env) (s : State) (f : File)
    (hTitle : isBlank s.item = false) (hImage : s.imageFile = some f)
    (hFail : env.uploadData (storageKey env.username env.now f.name) f = none
      ∨ ∃ k, env.uploadData (storageKey env.username env.now f.name) f = some k
          ∧ env.getUrl 0 k = none) :
    (addItem env s).1 = s
      ∧ (∀ t k, Call.graphqlCreate t k ∉ (addItem env s).2)
      ∧ (addItem env s).1.items = s.items
      ∧ (addItem env s).1.item = s.item
      ∧ (addItem env s).1.imageFile = s.imageFile := by
  have key : (addItem env s).1 = s ∧ ∀ t k, Call.graphqlCreate t k ∉ (addItem env s).2 := by
    rcases hFail with hu | ⟨k, hu, hg⟩
    · simp [addItem, hTitle, hImage, hu]
    · simp [addItem, hTitle, hImage, hu, hg]
  refine ⟨key.1, key.2, ?_, ?_, ?_⟩ <;> rw [key.1]

/-- The marathon scenario with a rejected upload: the state is as before and the
only calls are the upload and the error log. -/
theorem addItem_upload_failure_witness :
    isBlank stateMarathon.item = false
      ∧ (addItem envUploadFails stateMarathon).1 = stateMarathon
      ∧ (addItem envUploadFails stateMarathon).2
          = [Call.uploadData "bucket-images/ann/17-shoes.png" shoes "image/png",
             Call.consoleError "Create error:"] :=
  ⟨by decide,
    (addItem_upload_failure envUploadFails stateMarathon shoes (by decide) rfl
      (Or.inl rfl)).1,
    by decide⟩

/-- C7 as stated fails: after creating "Visit Japan" with no image, the appended
element is not the returned record with `imageUrl` undefined. -/
theorem addItem_no_image_not_undefined :
    (addItem (envListing []) stateJapan).1.items
      ≠ stateJapan.items ++
          [({ id := "n", title := "Visit Japan", imageKey := none, createdAt := 30 } :
              BucketItem).asItem] := by
  decide

/-- C7, amended: with a non-blank title and no image selected, when the Record
Store accepts the creation and returns `r`, `addItem` makes exactly one call, the
creation mutation with the title input and `imageKey` null, appends exactly one
element at the end of the list, namely `r` with `imageUrl` null, keeps the
elements listed before, and resets the title input and the selected image. When
the store returns the title and image key it was sent, the element has the
submitted title and `imageKey` null. -/
theorem addItem_no_image (env : Env) (s : State) (r : BucketItem)
    (hTitle : isBlank s.item = false) (hImage : s.imageFile = none)
    (hOk : env.createBucketItem s.item none = some r) :
    (addItem env s).2 = [Call.graphqlCreate s.item none]
      ∧ (addItem env s).1.items = s.items ++ [{ toBucketItem := r, imageUrl := ImageUrl.null }]
      ∧ (addItem env s).1.item = ""
      ∧ (addItem env s).1.imageFile = none
      ∧ (addItem env s).1.fileInputValue = ""
      ∧ (addItem env s).1.editingId = s.editingId
      ∧ (addItem env s).1.editingTitle = s.editingTitle
      ∧ (addItem env s).1.editingImageFile = s.editingImageFile
      ∧ (r.title = s.item → r.imageKey = none →
          (addItem env s).1.items = s.items ++
            [{ id := r.id, title := s.item, imageKey := none, createdAt := r.createdAt,
               imageUrl := ImageUrl.null }]) := by
  have hs : addItem env s =
      ({ s with
          items := s.items ++ [{ toBucketItem := r, imageUrl := ImageUrl.null }],
          item := "", imageFile := none, fileInputValue := "" },
        [Call.graphqlCreate s.item none]) := by
    simp [addItem, addItemCreate, hTitle, hImage, hOk]
  rw [hs]
  refine ⟨rfl, rfl, rfl, rfl, rfl, rfl, rfl, rfl, ?_⟩
  intro ht hk
  cases r
  simp_all

/-- The scenario of C7: "Visit Japan" with no image. -/
theorem addItem_no_image_witness :
    isBlank stateJapan.item = false
      ∧ (addItem (envListing []) stateJapan).1.items
          = [plainItem "a" "first" 10,
             { id := "n", title := "Visit Japan", imageKey := none, createdAt := 30,
               imageUrl := ImageUrl.null }]
      ∧ (addItem (envListing []) stateJapan).1.item = "" :=
  ⟨by decide,
    (addItem_no_image (envListing []) stateJapan
      { id := "n", title := "Visit Japan", imageKey := none, createdAt := 30 }
      (by decide) rfl rfl).2.1,
    (addItem_no_image (envListing []) stateJapan
      { id := "n", title := "Visit Japan", imageKey := none, createdAt := 30 }
      (by decide) rfl rfl).2.2.1⟩

/-! ## Update -/

theorem replaceEdited_createdAt (eid : Option String) (t : String) (k : Option String)
    (u : ImageUrl) (i : Item) : (replaceEdited eid t k u i).createdAt = i.createdAt := by
  unfold replaceEdited
  split <;> rfl

/-- C5: in a list with pairwise distinct ids, when the element passed to
`updateItem` is the listed element being edited, the editing title is not blank,
no replacement image is pending and the Record Store accepts the update,
`updateItem` makes exactly one call, the update mutation carrying the prior
`imageKey`, and changes nothing in the list but the title of that element: its
`imageKey` and `imageUrl`, every other element, the length and the order are as
before. -/
theorem updateItem_keeps_image (env : Env) (currentItem : Item) (s : State)
    (hNodup : (s.items.map fun i => i.id).Nodup) (hMem : currentItem ∈ s.items)
    (hEdit : s.editingId = some currentItem.id) (hTitle : isBlank s.editingTitle = false)
    (hNoImage : s.editingImageFile = none)
    (hOk : env.updateBucketItem s.editingId s.editingTitle currentItem.imageKey = true) :
    (updateItem env currentItem s).2
        = [Call.graphqlUpdate (some currentItem.id) s.editingTitle currentItem.imageKey]
      ∧ (updateItem env currentItem s).1.items
          = s.items.map (fun i =>
              if i = currentItem then { currentItem with title := s.editingTitle } else i)
      ∧ (updateItem env currentItem s).1.items.length = s.items.length
      ∧ ((updateItem env currentItem s).1.items.map
            fun i => (i.id, i.imageKey, i.imageUrl, i.createdAt))
          = s.items.map (fun i => (i.id, i.imageKey, i.imageUrl, i.createdAt))
      ∧ (∀ (n : Nat) (i : Item), s.items[n]? = some i → i ≠ currentItem →
          (updateItem env currentItem s).1.items[n]? = some i)
      ∧ (∀ n : Nat, s.items[n]? = some currentItem →
          (updateItem env currentItem s).1.items[n]?
            = some { currentItem with title := s.editingTitle }) := by
  have hinj : ∀ i ∈ s.items, i.id = currentItem.id → i = currentItem := fun i hi hid =>
    List.inj_on_of_nodup_map hNodup hi hMem hid
  have hitems : (updateItem env currentItem s).1.items
      = s.items.map (fun i =>
          if i = currentItem then { currentItem with title := s.editingTitle } else i) := by
    have h1 : (updateItem env currentItem s).1.items
        = s.items.map (replaceEdited s.editingId s.editingTitle currentItem.imageKey
            currentItem.imageUrl) := by
      simp [updateItem, updateItemMutate, hTitle, hNoImage, hOk]
    rw [h1]
    apply List.map_congr_left
    intro i hi
    unfold replaceEdited
    by_cases hid : i.id = currentItem.id
    · have := hinj i hi hid
      subst this
      simp [hEdit]
    · have hne : i ≠ currentItem := fun h => hid (by rw [h])
      simp [hEdit, hid, hne]
  refine ⟨?_, hitems, ?_, ?_, ?_, ?_⟩
  · have hOk2 := hOk
    rw [hEdit] at hOk2
    simp [updateItem, updateItemMutate, hTitle, hNoImage, hEdit, hOk2]
  · rw [hitems, List.length_map]
  · rw [hitems, List.map_map]
    apply List.map_congr_left
    intro i _
    by_cases hi : i = currentItem
    · simp [hi]
    · simp [hi]
  · intro n i hn hne
    rw [hitems, List.getElem?_map, hn]
    simp [hne]
  · intro n hn
    rw [hitems, List.getElem?_map, hn]
    simp

/-- Renaming the first element of `twoItems` keeps its image key and URL and
leaves the second element alone. -/
theorem updateItem_keeps_image_witness :
    isBlank stateEditingA.editingTitle = false
      ∧ (updateItem (envListing []) (twoItems.headD (plainItem "" "" 0)) stateEditingA).1.items
          = [{ id := "a", title := "renamed", imageKey := some "k0", createdAt := 10,
               imageUrl := ImageUrl.url "https://k0" },
             plainItem "b" "second" 20]
      ∧ (updateItem (envListing []) (twoItems.headD (plainItem "" "" 0)) stateEditingA).2
          = [Call.graphqlUpdate (some "a") "renamed" (some "k0")] :=
  ⟨by decide, by decide,
    (updateItem_keeps_image (envListing []) (twoItems.headD (plainItem "" "" 0)) stateEditingA
      (by decide) (by decide) rfl (by decide) rfl rfl).1⟩

/-! ## Storage keys -/

theorem digitChar_value : ∀ m, m < 10 →
    (Nat.digitChar m).toNat - 48 = m ∧ Nat.digitChar m ≠ '-' := by
  decide

theorem digitsValue_append_singleton (ds : List Char) (c : Char) :
    digitsValue (ds ++ [c]) = 10 * digitsValue ds + (c.toNat - 48) := by
  simp [digitsValue, List.foldl_append]

theorem toDigitsCore_digits : ∀ (fuel n : Nat) (acc : List Char), n < fuel →
    ∃ ds, Nat.toDigitsCore 10 fuel n acc = ds ++ acc ∧ digitsValue ds = n
      ∧ ∀ c ∈ ds, c ≠ '-' := by
  intro fuel
  induction fuel with
  | zero => intro n acc h; omega
  | succ fuel ih =>
    intro n acc h
    have hd := digitChar_value (n % 10) (Nat.mod_lt n (by decide))
    unfold Nat.toDigitsCore
    by_cases h0 : n / 10 = 0
    · refine ⟨[Nat.digitChar (n % 10)], by simp [h0], ?_, ?_⟩
      · have : digitsValue [Nat.digitChar (n % 10)] = (Nat.digitChar (n % 10)).toNat - 48 := by
          simp [digitsValue]
        rw [this, hd.1]
        omega
      · intro c hc
        rw [List.mem_singleton] at hc
        rw [hc]
        exact hd.2
    · obtain ⟨ds, hds, hv, hne⟩ := ih (n / 10) (Nat.digitChar (n % 10) :: acc) (by omega)
      refine ⟨ds ++ [Nat.digitChar (n % 10)], by simp [h0, hds], ?_, ?_⟩
      · rw [digitsValue_append_singleton, hv, hd.1]
        omega
      · intro c hc
        rcases List.mem_append.mp hc with hc | hc
        · exact hne c hc
        · rw [List.mem_singleton] at hc
          rw [hc]
          exact hd.2

theorem repr_digits (n : Nat) :
    digitsValue (Nat.repr n).data = n ∧ ∀ c ∈ (Nat.repr n).data, c ≠ '-' := by
  obtain ⟨ds, hds, hv, hne⟩ := toDigitsCore_digits (n + 1) n [] (Nat.lt_succ_self n)
  have : (Nat.repr n).data = Nat.toDigitsCore 10 (n + 1) n [] := rfl
  rw [this, hds, List.append_nil]
  exact ⟨hv, hne⟩

theorem split_at_first_dash : ∀ (l₁ l₂ r₁ r₂ : List Char),
    (∀ c ∈ l₁, c ≠ '-') → (∀ c ∈ l₂, c ≠ '-') →
    l₁ ++ '-' :: r₁ = l₂ ++ '-' :: r₂ → l₁ = l₂ ∧ r₁ = r₂ := by
  intro l₁
  induction l₁ with
  | nil =>
    intro l₂ r₁ r₂ _ h₂ h
    cases l₂ with
    | nil => simpa using h
    | cons b l₂ =>
      simp only [List.nil_append, List.cons_append, List.cons.injEq] at h
      exact absurd h.1.symm (h₂ b (List.mem_cons_self _ _))
  | cons a l₁ ih =>
    intro l₂ r₁ r₂ h₁ h₂ h
    cases l₂ with
    | nil =>
      simp only [List.nil_append, List.cons_append, List.cons.injEq] at h
      exact absurd h.1 (h₁ a (List.mem_cons_self _ _))
    | cons b l₂ =>
      simp only [List.cons_append, List.cons.injEq] at h
      obtain ⟨hl, hr⟩ := ih l₂ r₁ r₂ (fun c hc => h₁ c (List.mem_cons_of_mem _ hc))
        (fun c hc => h₂ c (List.mem_cons_of_mem _ hc)) h.2
      exact ⟨by rw [h.1, hl], hr⟩

theorem storageKey_injective (username : String) (t₁ t₂ : Nat) (f₁ f₂ : String)
    (h : storageKey username t₁ f₁ = storageKey username t₂ f₂) : t₁ = t₂ ∧ f₁ = f₂ := by
  have hdata := congrArg String.data h
  simp only [storageKey, String.data_append, List.append_assoc] at hdata
  have h1 := List.append_cancel_left (List.append_cancel_left (List.append_cancel_left hdata))
  obtain ⟨hl, hr⟩ := split_at_first_dash _ _ _ _ (repr_digits t₁).2 (repr_digits t₂).2 h1
  constructor
  · rw [← (repr_digits t₁).1, ← (repr_digits t₂).1, hl]
  · exact String.ext hr

/-- C9: the storage key is the namespace `bucket-images/`, the user name, `/`,
the timestamp in decimal, `-` and the file name, in that order, so it ends in
`-` followed by the file name; `addItem` and `updateItem` upload under that key,
computed from the user name, the clock and the file name alone; and for a fixed
user name equal keys have equal timestamps and equal file names. -/
theorem storageKey_collision_free (username : String) :
    (∀ t f, storageKey username t f
        = "bucket-images/" ++ username ++ "/" ++ toString t ++ "-" ++ f)
      ∧ (∀ t f, ∃ p, storageKey username t f = p ++ ("-" ++ f))
      ∧ (∀ t₁ t₂ f₁ f₂, storageKey username t₁ f₁ = storageKey username t₂ f₂ →
          t₁ = t₂ ∧ f₁ = f₂)
      ∧ (∀ (env : Env) (s : State) (f : File), env.username = username →
          isBlank s.item = false → s.imageFile = some f →
          (addItem env s).2.head? = some (Call.uploadData (storageKey username env.now f.name)
            f f.type))
      ∧ (∀ (env : Env) (currentItem : Item) (s : State) (f : File), env.username = username →
          isBlank s.editingTitle = false → s.editingImageFile = some f →
          (updateItem env currentItem s).2.head?
            = some (Call.uploadData (storageKey username env.now f.name) f f.type)) := by
  refine ⟨fun _ _ => rfl, ?_, storageKey_injective username, ?_, ?_⟩
  · intro t f
    exact ⟨"bucket-images/" ++ username ++ "/" ++ Nat.repr t, by
      simp [storageKey, String.append_assoc]⟩
  · intro env s f hu hTitle hImage
    subst hu
    cases h1 : env.uploadData (storageKey env.username env.now f.name) f with
    | none => simp [addItem, hTitle, hImage, h1]
    | some k =>
      cases h2 : env.getUrl 0 k with
      | none => simp [addItem, hTitle, hImage, h1, h2]
      | some u =>
        cases h3 : env.createBucketItem s.item
            (some (storageKey env.username env.now f.name)) <;>
          simp [addItem, addItemCreate, hTitle, hImage, h1, h2, h3]
  · intro env currentItem s f hu hTitle hImage
    subst hu
    cases h1 : env.uploadData (storageKey env.username env.now f.name) f with
    | none => simp [updateItem, hTitle, hImage, h1]
    | some k =>
      cases h2 : env.getUrl 0 k with
      | none => simp [updateItem, hTitle, hImage, h1, h2]
      | some u =>
        cases h3 : env.updateBucketItem s.editingId s.editingTitle
            (some (storageKey env.username env.now f.name)) <;>
          simp [updateItem, updateItemMutate, hTitle, hImage, h1, h2, h3]

/-- The marathon scenario: the key of `shoes.png`, the upload under it, and two
uploads of the same user that agree on the key. -/
theorem storageKey_collision_free_witness :
    storageKey "ann" 17 "shoes.png" = "bucket-images/ann/17-shoes.png"
      ∧ (addItem (envListing []) stateMarathon).2.head?
          = some (Call.uploadData (storageKey "ann" 17 "shoes.png") shoes "image/png")
      ∧ ((17 : Nat) = 17 ∧ "shoes.png" = "shoes.png")
      ∧ storageKey "ann" 1 "2-x" ≠ storageKey "ann" 12 "x" :=
  ⟨by decide,
    (storageKey_collision_free "ann").2.2.2.1 (envListing []) stateMarathon shoes rfl
      (by decide) rfl,
    (storageKey_collision_free "ann").2.2.1 17 17 "shoes.png" "shoes.png" rfl,
    fun h => absurd ((storageKey_collision_free "ann").2.2.1 1 12 "2-x" "x" h).1 (by decide)⟩

/-! ## The edit state -/

/-- C10, the code at the failing input: the pencil button sets the editing id and
title and keeps the pending replacement image. With `"a"` mid-edit and the image
`shoes.png` chosen for it, the pencil of `"b"` leaves that image pending, and
Save on `"b"`, with no image chosen for `"b"`, uploads it and gives `"b"` its
key and URL. -/
theorem beginEdit_keeps_pending_image :
    (∀ i s, (beginEdit i s).editingImageFile = s.editingImageFile)
      ∧ stateEditingAWithImage.editingId = some "a"
      ∧ (beginEdit (plainItem "b" "second" 20) stateEditingAWithImage).editingId = some "b"
      ∧ (beginEdit (plainItem "b" "second" 20) stateEditingAWithImage).editingTitle = "second"
      ∧ (beginEdit (plainItem "b" "second" 20) stateEditingAWithImage).editingImageFile
          = some shoes
      ∧ (updateItem (envListing []) (plainItem "b" "second" 20)
            (beginEdit (plainItem "b" "second" 20) stateEditingAWithImage)).1.items
          = [{ id := "a", title := "first", imageKey := some "k0", createdAt := 10,
               imageUrl := ImageUrl.url "https://k0" },
             { id := "b", title := "second",
               imageKey := some "bucket-images/ann/17-shoes.png", createdAt := 20,
               imageUrl := ImageUrl.url "https://bucket-images/ann/17-shoes.png" }]
      ∧ (cancelEdit stateEditingAWithImage).editingImageFile = none := by
  refine ⟨fun _ _ => rfl, ?_, ?_, ?_, ?_, ?_, ?_⟩ <;> decide

/-! ## Order of the list -/

theorem sorted_append_last (x : Item) : ∀ l : List Item, SortedByCreatedAt l →
    (∀ i, l.getLast? = some i → i.createdAt ≤ x.createdAt) → SortedByCreatedAt (l ++ [x]) := by
  intro l
  induction l with
  | nil => intro _ _; simp [SortedByCreatedAt]
  | cons a l ih =>
    intro hs hlast
    unfold SortedByCreatedAt at hs ih ⊢
    rw [List.sorted_cons] at hs
    have hl : (l ++ [x]).Sorted createdAtLe := by
      apply ih hs.2
      intro i hi
      apply hlast i
      cases l with
      | nil => simp at hi
      | cons b l => simpa [List.getLast?_cons_cons] using hi
    have hax : a.createdAt ≤ x.createdAt := by
      cases hl2 : l.getLast? with
      | none =>
        have : l = [] := List.getLast?_eq_none_iff.mp hl2
        subst this
        exact hlast a rfl
      | some i =>
        have hmem : i ∈ l := List.mem_of_getLast?_eq_some hl2
        have h1 : a.createdAt ≤ i.createdAt := hs.1 i hmem
        have h2 : i.createdAt ≤ x.createdAt := by
          apply hlast i
          cases l with
          | nil => simp at hl2
          | cons b l => simpa [List.getLast?_cons_cons] using hl2
        exact Int.le_trans h1 h2
    rw [List.cons_append, List.sorted_cons]
    refine ⟨?_, hl⟩
    intro b hb
    rcases List.mem_append.mp hb with hb | hb
    · exact hs.1 b hb
    · rw [List.mem_singleton] at hb
      rw [hb]
      exact hax

theorem fetchItems_sorted (env : Env) (s : State) (h : SortedByCreatedAt s.items) :
    SortedByCreatedAt (fetchItems env s).1.items := by
  cases hl : env.listBucketItems with
  | none => simpa [fetchItems, hl] using h
  | some recs =>
    rw [fetchItems_items env s recs hl]
    exact List.sorted_insertionSort _ _

theorem deleteItem_sorted (env : Env) (id : String) (s : State)
    (h : SortedByCreatedAt s.items) : SortedByCreatedAt (deleteItem env id s).1.items := by
  cases hd : env.deleteBucketItem id with
  | false => simpa [deleteItem, hd] using h
  | true =>
    have : (deleteItem env id s).1.items = s.items.filter (fun i => i.id ≠ id) := by
      simp [deleteItem, hd]
    rw [this]
    exact List.Pairwise.filter _ h

theorem updateItemMutate_sorted (env : Env) (s : State) (k : Option String) (u : ImageUrl)
    (calls : List Call) (h : SortedByCreatedAt s.items) :
    SortedByCreatedAt (updateItemMutate env s k u calls).1.items := by
  cases ho : env.updateBucketItem s.editingId s.editingTitle k with
  | false => simpa [updateItemMutate, ho] using h
  | true =>
    have : (updateItemMutate env s k u calls).1.items
        = s.items.map (replaceEdited s.editingId s.editingTitle k u) := by
      simp [updateItemMutate, ho]
    rw [this]
    unfold SortedByCreatedAt List.Sorted
    rw [List.pairwise_map]
    refine List.Pairwise.imp ?_ h
    intro a b hab
    unfold createdAtLe
    rw [replaceEdited_createdAt, replaceEdited_createdAt]
    exact hab

theorem updateItem_sorted (env : Env) (currentItem : Item) (s : State)
    (h : SortedByCreatedAt s.items) :
    SortedByCreatedAt (updateItem env currentItem s).1.items := by
  unfold updateItem
  split
  · exact h
  · split
    · exact updateItemMutate_sorted env s _ _ _ h
    · dsimp only
      split
      · exact h
      · split
        · exact h
        · exact updateItemMutate_sorted env s _ _ _ h

theorem addItemCreate_sorted (env : Env) (s : State) (k : Option String) (u : ImageUrl)
    (calls : List Call) (h : SortedByCreatedAt s.items)
    (hord : ∀ r i, env.createBucketItem s.item k = some r → s.items.getLast? = some i →
      i.createdAt ≤ r.createdAt) :
    SortedByCreatedAt (addItemCreate env s k u calls).1.items := by
  cases hc : env.createBucketItem s.item k with
  | none => simpa [addItemCreate, hc] using h
  | some r =>
    have : (addItemCreate env s k u calls).1.items
        = s.items ++ [{ toBucketItem := r, imageUrl := u }] := by
      simp [addItemCreate, hc]
    rw [this]
    exact sorted_append_last _ _ h (fun i hi => hord r i hc hi)

theorem addItem_sorted (env : Env) (s : State) (h : SortedByCreatedAt s.items)
    (hord : createInOrder s (Event.add env)) :
    SortedByCreatedAt (addItem env s).1.items := by
  have hord2 : ∀ r i, env.createBucketItem s.item (createKey env s) = some r →
      s.items.getLast? = some i → i.createdAt ≤ r.createdAt := by
    intro r i hr hi
    exact hord r hr i hi
  unfold addItem
  split
  · exact h
  · split
    · rename_i hnone
      apply addItemCreate_sorted env s _ _ _ h
      simpa [createKey, hnone] using hord2
    · rename_i f hsome
      dsimp only
      split
      · exact h
      · split
        · exact h
        · apply addItemCreate_sorted env s _ _ _ h
          simpa [createKey, hsome] using hord2

theorem step_sorted (s : State) (e : Event) (h : SortedByCreatedAt s.items)
    (hord : createInOrder s e) : SortedByCreatedAt (step s e).items := by
  cases e with
  | fetch env => exact fetchItems_sorted env s h
  | add env => exact addItem_sorted env s h hord
  | update env currentItem => exact updateItem_sorted env currentItem s h
  | delete env id => exact deleteItem_sorted env id s h
  | beginEdit i => exact h
  | cancelEdit => exact h
  | chooseEditingImage f => exact h
  | typeEditingTitle v => exact h
  | typeItem v => exact h
  | chooseImage f => exact h

theorem run_sorted : ∀ (evs : List Event) (s : State), SortedByCreatedAt s.items →
    InOrderRun s evs → SortedByCreatedAt (run s evs).items := by
  intro evs
  induction evs with
  | nil => intro s h _; exact h
  | cons e evs ih =>
    intro s h hrun
    exact ih (step s e) (step_sorted s e h hrun.1) hrun.2

/-- C2 as stated fails: after a listing of two records and a create for which the
Record Store returns a record stamped earlier than both, the list is not in
ascending order of `createdAt`. -/
theorem create_breaks_order :
    ¬ SortedByCreatedAt
        (run State.initial
          [Event.fetch envStale, Event.typeItem "Visit Japan", Event.add envStale]).items := by
  decide

/-- C2, amended: the empty initial list is in ascending order of `createdAt`;
every event keeps the list in that order, also a failed operation, provided
that, when the event is a create, the record the Record Store returns is not
older than the last element of the list; hence the list is in order after every
run all of whose creates meet that condition. Listing, update and delete keep
the order whatever the Record Store returns. -/
theorem sorted_invariant :
    SortedByCreatedAt State.initial.items
      ∧ (∀ s e, SortedByCreatedAt s.items → createInOrder s e →
          SortedByCreatedAt (step s e).items)
      ∧ (∀ evs, InOrderRun State.initial evs →
          SortedByCreatedAt (run State.initial evs).items)
      ∧ (∀ env s, SortedByCreatedAt s.items → SortedByCreatedAt (fetchItems env s).1.items)
      ∧ (∀ env c s, SortedByCreatedAt s.items →
          SortedByCreatedAt (updateItem env c s).1.items)
      ∧ (∀ env id s, SortedByCreatedAt s.items →
          SortedByCreatedAt (deleteItem env id s).1.items) := by
  have h0 : SortedByCreatedAt State.initial.items := by
    simp [SortedByCreatedAt, State.initial]
  exact ⟨h0, step_sorted, fun evs => run_sorted evs State.initial h0, fetchItems_sorted,
    updateItem_sorted, deleteItem_sorted⟩

/-- A run with a listing, a create stamped later than the listed records, an
edit and a delete ends with the list in order. -/
theorem sorted_invariant_witness :
    ((run State.initial
        [Event.fetch (envListing scenarioRecords), Event.typeItem "Visit Japan",
         Event.add (envListing scenarioRecords),
         Event.beginEdit (plainItem "b" "second" 20), Event.typeEditingTitle "renamed",
         Event.update (envListing scenarioRecords) (plainItem "b" "second" 20),
         Event.delete (envListing scenarioRecords) "a"]).items.map fun i => (i.id, i.createdAt))
        = [("b", 20), ("n", 30)]
      ∧ SortedByCreatedAt
          (run State.initial
            [Event.fetch (envListing scenarioRecords), Event.typeItem "Visit Japan",
             Event.add (envListing scenarioRecords),
             Event.beginEdit (plainItem "b" "second" 20), Event.typeEditingTitle "renamed",
             Event.update (envListing scenarioRecords) (plainItem "b" "second" 20),
             Event.delete (envListing scenarioRecords) "a"]).items :=
  ⟨by decide, sorted_invariant.2.2.1 _ (by decide)⟩

end BucketList
